import Mathlib

set_option maxRecDepth 40000

/-!
Verification development for the deer-flow chat UI fragment:
the tolerant JSON decoder (`src/web/src/core/utils/json.ts`) and the
message-list renderer (`src/web/src/app/chat/page.tsx`).

The decoder's underlying best-effort parse comes from the external
`best-effort-json-parser` package, which is not part of this repository's
sources; it is modelled here from the specification's description
(an accepted input is any prefix of a valid JSON document: an unterminated
string is closed at the cut point, an unterminated array or object is
closed with its known elements, a dangling key is dropped, and a
syntactically invalid token is an unrecoverable error).

JavaScript strings are modelled as Lean `String`/`List Char`; JSON numbers
are kept as their source lexemes (no numeric normalisation); `null` and
`undefined` inputs are modelled with `Option`.
-/

/-- A JSON value as produced by the decoder.  Object fields are kept in
textual order, duplicates included; JavaScript object semantics
(last-value-wins, property ordering) are applied separately where a render
path observes them. -/
inductive Json where
  | null
  | bool (b : Bool)
  | num (lit : String)
  | str (s : String)
  | arr (elems : List Json)
  | obj (fields : List (String × Json))

/-- The whitespace class used by the decoder's `trim`/`\s` handling
(space, tab, newline, carriage return — the forms that occur in
model-streamed content). -/
def isWs (c : Char) : Bool :=
  c = ' ' || c = '\t' || c = '\n' || c = '\r'

def skipWs : List Char → List Char
  | [] => []
  | c :: cs => if isWs c then skipWs cs else c :: cs

/-- `String.prototype.trim` on the character list. -/
def trimChars (cs : List Char) : List Char :=
  ((cs.dropWhile isWs).reverse.dropWhile isWs).reverse

/-- The backquote character of a markdown code fence. -/
def backquote : Char := Char.ofNat 96

def hexVal (c : Char) : Option Nat :=
  if '0' ≤ c ∧ c ≤ '9' then some (c.toNat - '0'.toNat)
  else if 'a' ≤ c ∧ c ≤ 'f' then some (c.toNat - 'a'.toNat + 10)
  else if 'A' ≤ c ∧ c ≤ 'F' then some (c.toNat - 'A'.toNat + 10)
  else none

/-- Single-character JSON string escapes. -/
def escChar (c : Char) : Option Char :=
  if c = '"' then some '"'
  else if c = '\\' then some '\\'
  else if c = '/' then some '/'
  else if c = 'b' then some (Char.ofNat 8)
  else if c = 'f' then some (Char.ofNat 12)
  else if c = 'n' then some '\n'
  else if c = 'r' then some '\r'
  else if c = 't' then some '\t'
  else none

/-- Result of scanning a JSON string body (after the opening quote).
`done` reached a closing quote; `cut` ran out of input (the best-effort
parse closes the string at the cut point); `bad` met an invalid escape. -/
inductive StrRes where
  | done (s : List Char) (rest : List Char)
  | cut (s : List Char)
  | bad

def parseStrBody : Nat → List Char → List Char → StrRes
  | 0, _, _ => .bad
  | Nat.succ fuel, acc, cs =>
    match cs with
    | [] => .cut acc.reverse
    | '"' :: rest => .done acc.reverse rest
    | '\\' :: rest =>
      match rest with
      | [] => .cut acc.reverse
      | 'u' :: t =>
        match t with
        | a :: b :: c :: d :: t' =>
          match hexVal a, hexVal b, hexVal c, hexVal d with
          | some x1, some x2, some x3, some x4 =>
            parseStrBody fuel (Char.ofNat (((x1 * 16 + x2) * 16 + x3) * 16 + x4) :: acc) t'
          | _, _, _, _ => .bad
        | _ => .cut acc.reverse
      | e :: t =>
        match escChar e with
        | some c => parseStrBody fuel (c :: acc) t
        | none => .bad
    | c :: rest => parseStrBody fuel (c :: acc) rest

/-- Characters that may occur inside a JSON number lexeme. -/
def numChar (c : Char) : Bool :=
  c.isDigit || c = '-' || c = '+' || c = '.' || c = 'e' || c = 'E'

def expOk : List Char → Bool
  | [] => true
  | c :: t =>
    if c = 'e' ∨ c = 'E' then
      let t' := match t with
        | '+' :: u => u
        | '-' :: u => u
        | u => u
      !t'.isEmpty && t'.all Char.isDigit
    else false

def fracExpOk : List Char → Bool
  | [] => true
  | '.' :: t =>
    !(t.takeWhile Char.isDigit).isEmpty && expOk (t.dropWhile Char.isDigit)
  | cs => expOk cs

/-- The JSON number grammar (`-? int frac? exp?`, no leading zeros). -/
def numOk (cs : List Char) : Bool :=
  let cs' := match cs with
    | '-' :: t => t
    | t => t
  match cs' with
  | [] => false
  | '0' :: t => fracExpOk t
  | c :: _ => c.isDigit && fracExpOk (cs'.dropWhile Char.isDigit)

/-- Result of parsing one JSON value.  `cutDrop` marks an incomplete
non-string terminal at the end of input: the best-effort parse drops it
while closing the containers around it. -/
inductive PRes where
  | ok (v : Json) (rest : List Char)
  | cutDrop
  | bad

/-- Literal `true` / `false` / `null`: a mismatch while input remains is an
unrecoverable error; running out of input mid-literal is an incomplete
terminal. -/
def parseLit (strict : Bool) : List Char → Json → List Char → PRes
  | [], v, cs => .ok v cs
  | _ :: _, _, [] => if strict then .bad else .cutDrop
  | l :: ls, v, c :: cs => if c = l then parseLit strict ls v cs else .bad

mutual

/-- One JSON value.  With `strict := true` this is `JSON.parse`'s grammar
(trailing incompleteness is an error); with `strict := false` it is the
best-effort relaxation modelled from the spec. -/
def parseVal (strict : Bool) : Nat → List Char → PRes
  | 0, _ => .bad
  | Nat.succ fuel, cs =>
    match skipWs cs with
    | [] => .bad
    | '{' :: rest => parseObj strict fuel rest []
    | '[' :: rest => parseArr strict fuel rest []
    | '"' :: rest =>
      match parseStrBody (rest.length + 1) [] rest with
      | .done s r => .ok (.str (String.mk s)) r
      | .cut s => if strict then .bad else .ok (.str (String.mk s)) []
      | .bad => .bad
    | 't' :: rest => parseLit strict ['r', 'u', 'e'] (.bool true) rest
    | 'f' :: rest => parseLit strict ['a', 'l', 's', 'e'] (.bool false) rest
    | 'n' :: rest => parseLit strict ['u', 'l', 'l'] .null rest
    | c :: rest =>
      if c.isDigit || c = '-' then
        let run := c :: rest.takeWhile numChar
        let after := rest.dropWhile numChar
        if numOk run then .ok (.num (String.mk run)) after
        else if after.isEmpty && !strict then .cutDrop
        else .bad
      else .bad

/-- Array elements after `[` or after a comma.  At end of input the
best-effort parse closes the array with its fully parsed elements. -/
def parseArr (strict : Bool) : Nat → List Char → List Json → PRes
  | 0, _, _ => .bad
  | Nat.succ fuel, cs, acc =>
    match skipWs cs with
    | [] => if strict then .bad else .ok (.arr acc.reverse) []
    | ']' :: r => if strict && !acc.isEmpty then .bad else .ok (.arr acc.reverse) r
    | cs' =>
      match parseVal strict fuel cs' with
      | .ok v r =>
        match skipWs r with
        | [] => if strict then .bad else .ok (.arr (v :: acc).reverse) []
        | ',' :: r' => parseArr strict fuel r' (v :: acc)
        | ']' :: r' => .ok (.arr (v :: acc).reverse) r'
        | _ => .bad
      | .cutDrop => if strict then .bad else .ok (.arr acc.reverse) []
      | .bad => .bad

/-- Object members after `{` or after a comma.  At end of input the
best-effort parse closes the object with its complete members and drops a
dangling key. -/
def parseObj (strict : Bool) : Nat → List Char → List (String × Json) → PRes
  | 0, _, _ => .bad
  | Nat.succ fuel, cs, acc =>
    match skipWs cs with
    | [] => if strict then .bad else .ok (.obj acc.reverse) []
    | '}' :: r => if strict && !acc.isEmpty then .bad else .ok (.obj acc.reverse) r
    | '"' :: r =>
      match parseStrBody (r.length + 1) [] r with
      | .done k r1 =>
        match skipWs r1 with
        | [] => if strict then .bad else .ok (.obj acc.reverse) []
        | ':' :: r2 =>
          match skipWs r2 with
          | [] => if strict then .bad else .ok (.obj acc.reverse) []
          | r3 =>
            match parseVal strict fuel r3 with
            | .ok v r4 =>
              match skipWs r4 with
              | [] =>
                if strict then .bad
                else .ok (.obj ((String.mk k, v) :: acc).reverse) []
              | ',' :: r5 => parseObj strict fuel r5 ((String.mk k, v) :: acc)
              | '}' :: r5 => .ok (.obj ((String.mk k, v) :: acc).reverse) r5
              | _ => .bad
            | .cutDrop => if strict then .bad else .ok (.obj acc.reverse) []
            | .bad => .bad
        | _ => .bad
      | .cut _ => if strict then .bad else .ok (.obj acc.reverse) []
      | .bad => .bad
    | _ => .bad

end

/-- Modelled from the spec: the external `best-effort-json-parser`'s
`parse`, absent from this repository's sources.  Accepts any prefix of a
valid JSON document, closing open strings at the cut point and open
containers with their known elements, and dropping a dangling key;
`none` models a thrown error on unrecoverably invalid input. -/
def bestEffortParse (cs : List Char) : Option Json :=
  match parseVal false (4 * cs.length + 8) cs with
  | .ok v _ => some v
  | _ => none

/-- `JSON.parse` (strict): `none` models a thrown `SyntaxError`. -/
def jsonParseStrict (s : String) : Option Json :=
  match parseVal true (4 * s.data.length + 8) s.data with
  | .ok v rest => if (skipWs rest).isEmpty then some v else none
  | _ => none

/-- One anchored fence replace, `.replace(/^```tag\s*/, "")` in
`parseJSON`: if the input starts with the fence marker, drop it together
with the whitespace that follows. -/
def stripLead1 (tag : List Char) (cs : List Char) : List Char :=
  if (backquote :: backquote :: backquote :: tag).isPrefixOf cs then
    (cs.drop (3 + tag.length)).dropWhile isWs
  else cs

/-- The trailing replace `.replace(/\s*```$/, "")`: drop a final fence and
the whitespace immediately before it. -/
def stripTrail1 (cs : List Char) : List Char :=
  let r := cs.reverse
  if [backquote, backquote, backquote].isPrefixOf r then
    ((r.drop 3).dropWhile isWs).reverse
  else cs

def jsonTag : List Char := ['j', 's', 'o', 'n']
def jsTag : List Char := ['j', 's']
def tsTag : List Char := ['t', 's']
def plaintextTag : List Char := ['p', 'l', 'a', 'i', 'n', 't', 'e', 'x', 't']

/-- The fence-stripping chain of `parseJSON`, applied in source order:
`json`, `js`, `ts`, `plaintext`, bare fence, then the trailing fence. -/
def stripFences (cs : List Char) : List Char :=
  stripTrail1
    (stripLead1 []
      (stripLead1 plaintextTag
        (stripLead1 tsTag
          (stripLead1 jsTag
            (stripLead1 jsonTag cs)))))

/-- `parseJSON` from `src/web/src/core/utils/json.ts`.  `none` models a
`null`/`undefined` argument; the `!json` guard also catches the empty
string; the `try`/`catch` around the parse maps a parse error to the
fallback. -/
def parseJSON (json : Option String) (fallback : Json) : Json :=
  match json with
  | none => fallback
  | some s =>
    if s.isEmpty then fallback
    else
      match bestEffortParse (stripFences (trimChars s.data)) with
      | some v => v
      | none => fallback

/-- Whether the input still starts with a code fence. -/
def isFencePrefix (cs : List Char) : Bool :=
  [backquote, backquote, backquote].isPrefixOf cs

/-- The specification's reading of the fence stripping: at most one
leading fence marker is removed — the first matching rule applies and no
further leading rule runs. -/
def stripLeadSpecOnce (cs : List Char) : List Char :=
  if (backquote :: backquote :: backquote :: jsonTag).isPrefixOf cs then stripLead1 jsonTag cs
  else if (backquote :: backquote :: backquote :: jsTag).isPrefixOf cs then stripLead1 jsTag cs
  else if (backquote :: backquote :: backquote :: tsTag).isPrefixOf cs then stripLead1 tsTag cs
  else if (backquote :: backquote :: backquote :: plaintextTag).isPrefixOf cs then
    stripLead1 plaintextTag cs
  else stripLead1 [] cs

/-- The decoder as the specification words it for claim C3: only the first
leading fence and the last trailing fence are stripped; any further fence
is preserved as literal text of the parsed content. -/
def parseJSONSpec (json : Option String) (fallback : Json) : Json :=
  match json with
  | none => fallback
  | some s =>
    if s.isEmpty then fallback
    else
      match bestEffortParse (stripTrail1 (stripLeadSpecOnce (trimChars s.data))) with
      | some v => v
      | none => fallback

/-- JavaScript property read `v.k` on a decoded JSON value: objects give
the property's value (last occurrence wins, as when the parser builds the
object), everything else gives `undefined` (`none`). -/
def jsGetField (v : Json) (k : String) : Option Json :=
  match v with
  | Json.obj fs => (fs.reverse.find? (fun p => p.1 = k)).map (·.2)
  | _ => none

/-- Whether the mantissa of a JSON number lexeme is zero. -/
def numLitIsZero (lit : String) : Bool :=
  ((lit.data.takeWhile (fun c => c ≠ 'e' ∧ c ≠ 'E')).filter Char.isDigit).all (· = '0')

/-- JavaScript truthiness of a decoded JSON value. -/
def jsTruthy : Json → Bool
  | Json.null => false
  | Json.bool b => b
  | Json.num lit => !numLitIsZero lit
  | Json.str s => !s.isEmpty
  | Json.arr _ => true
  | Json.obj _ => true

/-- `typeof v === "object"` for a decoded JSON value (`null`, arrays and
objects). -/
def jsTypeofIsObject : Json → Bool
  | Json.null => true
  | Json.arr _ => true
  | Json.obj _ => true
  | _ => false

/-- `.length` of a decoded JSON value: arrays and strings have one,
anything else gives `undefined`. -/
def jsLengthOpt : Json → Option Nat
  | Json.arr xs => some xs.length
  | Json.str s => some s.length
  | _ => none

/-- Rendering a primitive decoded value as text (template/JSX coercion).
Array and object children are outside the rendered-text model and map to
the empty string. -/
def jsDisplay : Json → String
  | Json.null => "null"
  | Json.bool b => if b then "true" else "false"
  | Json.num lit => lit
  | Json.str s => s
  | Json.arr _ => ""
  | Json.obj _ => ""

/-- `v ?? dflt` followed by text coercion: `null`/`undefined` fall back to
the default. -/
def jsCoalesceDisplay (v : Option Json) (dflt : String) : String :=
  match v with
  | none => dflt
  | some Json.null => dflt
  | some w => jsDisplay w

/-- The value the last textual occurrence of key `k` carries. -/
def lastValFor (k : String) (v : Json) (rest : List (String × Json)) : Json :=
  rest.foldl (fun acc q => if q.1 = k then q.2 else acc) v

def dedupeGo (seen : List String) : List (String × Json) → List (String × Json)
  | [] => []
  | p :: rest =>
    if seen.contains p.1 then dedupeGo seen rest
    else (p.1, lastValFor p.1 p.2 rest) :: dedupeGo (p.1 :: seen) rest

/-- JavaScript object construction from the parsed members: a repeated key
keeps its first position and its last value. -/
def dedupeProps (fs : List (String × Json)) : List (String × Json) :=
  dedupeGo [] fs

def natOfDigits (cs : List Char) : Nat :=
  cs.foldl (fun n c => n * 10 + (c.toNat - '0'.toNat)) 0

/-- A JavaScript array-index property key: the canonical decimal form of
an integer below `2^32 - 1`. -/
def isArrayIndexKey (s : String) : Bool :=
  !s.data.isEmpty && s.data.all Char.isDigit &&
    (s.data.length = 1 || s.data.head? ≠ some '0') &&
    natOfDigits s.data < 4294967295

def insertIdxKey (p : String × Json) : List (String × Json) → List (String × Json)
  | [] => [p]
  | q :: rest =>
    if natOfDigits p.1.data ≤ natOfDigits q.1.data then p :: q :: rest
    else q :: insertIdxKey p rest

/-- Ascending order on array-index keys, as JavaScript property
enumeration lists them. -/
def sortIdxKeys : List (String × Json) → List (String × Json)
  | [] => []
  | p :: rest => insertIdxKey p (sortIdxKeys rest)

/-- `Object.entries` on a decoded JSON value, with JavaScript's ordinary
own-property order: array-index keys ascending first, then string keys in
insertion order.  Arrays and strings enumerate their elements under index
keys; primitives have no enumerable properties. -/
def jsEntries : Json → List (String × Json)
  | Json.obj fs =>
    let props := dedupeProps fs
    sortIdxKeys (props.filter (fun p => isArrayIndexKey p.1)) ++
      props.filter (fun p => !isArrayIndexKey p.1)
  | Json.arr xs => xs.enum.map (fun p => (toString p.1, p.2))
  | Json.str s => s.data.enum.map (fun p => (toString p.1, Json.str (String.mk [p.2])))
  | _ => []

/-- `PodcastCard`'s decode (`page.tsx`): `JSON.parse(message.content ?? "")`
inside `useMemo`, with no surrounding `try`/`catch`.  An `Except.error`
models the `SyntaxError` escaping the render path. -/
def podcastCardRender (content : Option String) : Except String Json :=
  match jsonParseStrict (content.getD "") with
  | some v => Except.ok v
  | none => Except.error "SyntaxError"

/-- `ResearchCard`'s title decode (`page.tsx`):
`parseJSON(msg.content ?? "", { title: "" }).title` — wrapped, total. -/
def researchCardTitle (content : Option String) : Option Json :=
  jsGetField (parseJSON (some (content.getD "")) (Json.obj [("title", Json.str "")])) "title"

/-- The store slice the research cards observe: the id of the currently
open research session. -/
structure ResearchStore where
  openResearchId : Option String

/-- Modelled from the spec: the store mutator `openResearch(id)`
(`~/core/store`, outside this fragment's sources) makes `id` the single
open session. -/
def openResearch (id : String) (_st : ResearchStore) : ResearchStore :=
  ⟨some id⟩

/-- Modelled from the spec: the store mutator `closeResearch()` clears the
open session. -/
def closeResearch (_st : ResearchStore) : ResearchStore :=
  ⟨none⟩

/-- A session is open when it is the store's open-session id. -/
def isResearchOpen (st : ResearchStore) (id : String) : Bool :=
  st.openResearchId = some id

/-- `ResearchCard`'s `handleOpen` callback: close when this session is the
open one, open it otherwise. -/
def handleOpenToggle (researchId : String) (st : ResearchStore) : ResearchStore :=
  if st.openResearchId = some researchId then closeResearch st
  else openResearch researchId st

/-- The `ThoughtBlock` component state: the collapsible's `open` flag, the
`hasAutoCollapsed` latch, and the effect's previously seen dependency pair
`[hasMainContent, hasAutoCollapsed]` (`none` before the first render). -/
structure ThoughtState where
  isOpen : Bool
  hasAutoCollapsed : Bool
  prevDeps : Option (Bool × Bool)

/-- `useState(true)` / `useState(false)` initial state. -/
def thoughtInit : ThoughtState :=
  ⟨true, false, none⟩

/-- An event observed by a mounted `ThoughtBlock`: a render with the
current `hasMainContent` prop (running the effect when its dependencies
changed), or the user toggling the collapsible. -/
inductive ThoughtEvent where
  | render (hasMainContent : Bool)
  | userSetOpen (b : Bool)

/-- One step of `ThoughtBlock`: the effect body
`if (hasMainContent && !hasAutoCollapsed) { setIsOpen(false); setHasAutoCollapsed(true) }`
runs exactly when the dependency pair differs from the previous render's. -/
def thoughtStep (st : ThoughtState) (e : ThoughtEvent) : ThoughtState :=
  match e with
  | .userSetOpen b => { st with isOpen := b }
  | .render hmc =>
    if st.prevDeps = some (hmc, st.hasAutoCollapsed) then st
    else
      let st' := { st with prevDeps := some (hmc, st.hasAutoCollapsed) }
      if hmc && !st.hasAutoCollapsed then
        { st' with isOpen := false, hasAutoCollapsed := true }
      else st'

/-- States a mounted `ThoughtBlock` can reach. -/
inductive ThoughtReachable : ThoughtState → Prop where
  | init : ThoughtReachable thoughtInit
  | step (st : ThoughtState) (e : ThoughtEvent) :
      ThoughtReachable st → ThoughtReachable (thoughtStep st e)

/-- `OutlineMessage`'s decoded `sections` field:
`parseJSON(message.content ?? "", {}).sections`. -/
def sectionsField (content : Option String) : Option Json :=
  jsGetField (parseJSON (some (content.getD "")) (Json.obj [])) "sections"

/-- Identity key for the effect dependency `outline.sections` under
`Object.is`: arrays/objects compare by reference (fresh per distinct
content, memoised per content string), primitives by value (number-lexeme
normalisation such as `1` vs `1.0` is not modelled). -/
def sectionsDepKey (content : Option String) : Option String :=
  match sectionsField content with
  | none => none
  | some (Json.arr _) => some ("ref:" ++ content.getD "")
  | some (Json.obj _) => some ("ref:" ++ content.getD "")
  | some Json.null => some "prim:null"
  | some (Json.bool b) => some (if b then "prim:true" else "prim:false")
  | some (Json.num lit) => some ("prim:num:" ++ lit)
  | some (Json.str s) => some ("prim:str:" ++ s)

/-- A mounted `OutlineMessage`'s effect state: the previously seen
dependency pair `[message.isStreaming, outline.sections]`, the store's
edit-team count as last written by this effect (`none` while never
written; the inner `Option Nat` is `sections.length`, `undefined` for a
non-array), and how many times `setEditTeamCount` was called. -/
structure OutlineState where
  prevDeps : Option (Bool × Option String)
  editTeamCount : Option (Option Nat)
  setCalls : Nat

def outlineInit : OutlineState :=
  ⟨none, none, 0⟩

/-- One render of `OutlineMessage`: the effect
`if (!message.isStreaming && outline.sections) setEditTeamCount(outline.sections.length)`
runs exactly when the dependency pair differs from the previous render's. -/
def outlineRender (st : OutlineState) (isStreaming : Bool) (content : Option String) :
    OutlineState :=
  if st.prevDeps = some (isStreaming, sectionsDepKey content) then st
  else
    let st' : OutlineState := { st with prevDeps := some (isStreaming, sectionsDepKey content) }
    if isStreaming then st'
    else
      match sectionsField content with
      | some v =>
        if jsTruthy v then
          { st' with editTeamCount := some (jsLengthOpt v), setCalls := st'.setCalls + 1 }
        else st'
      | none => st'

/-- A sequence of renders of the same mounted `OutlineMessage`. -/
def outlineTrace (st : OutlineState) : List (Bool × Option String) → OutlineState
  | [] => st
  | (b, c) :: rest => outlineTrace (outlineRender st b c) rest

/-- `EditorTeamMessage`'s structured-format test: the tolerantly decoded
value (fallback `null`) is truthy, `typeof` object, and has a `title` or a
`steps` property. -/
def editorStructured (parsedData : Json) : Bool :=
  jsTruthy parsedData && jsTypeofIsObject parsedData &&
    ((jsGetField parsedData "title").isSome || (jsGetField parsedData "steps").isSome)

/-- `EditorTeamMessage`'s `editorData` memo: the decoded object when the
structured-format test passes, `null` (plain-text handling) otherwise.
The surrounding `try`/`catch` is dead code: `parseJSON` never throws. -/
def editorClassify (content : Option String) : Option Json :=
  let parsedData := parseJSON (some (content.getD "")) Json.null
  if editorStructured parsedData then some parsedData else none

/-- A step's type badge:
`step.type === "info_collecting" ? "信息收集" : step.type ?? "步骤"`. -/
def stepBadge (step : Json) : String :=
  match jsGetField step "type" with
  | some (Json.str t) => if t = "info_collecting" then "信息收集" else t
  | v => jsCoalesceDisplay v "步骤"

/-- One rendered editor-team step: badge, title, description. -/
def editorStep (i : Nat) (step : Json) : String × String × String :=
  (stepBadge step,
   jsCoalesceDisplay (jsGetField step "title") ("步骤 " ++ toString (i + 1)),
   jsCoalesceDisplay (jsGetField step "description") "暂无描述")

/-- What `EditorTeamMessage` renders: the structured card (title and step
rows) or the plain-text bubble. -/
inductive EditorView where
  | card (title : String) (steps : List (String × String × String))
  | bubble (text : String)

/-- Whether a decoded JSON value is an array (and so has `.map`). -/
def jsIsArray : Json → Bool
  | Json.arr _ => true
  | _ => false

/-- The structured card's step rows,
`editorData.steps && editorData.steps.map(...)` (`page.tsx` lines
768–791): a falsy `steps` paints no rows (the JSX renders the falsy value
itself, which draws nothing — apart from the literal `0`, a text artifact
outside this row model); an array renders one row per element; a truthy
non-array value has no `.map`, so the render throws a `TypeError`,
modelled as `Except.error`. -/
def editorStepRows (d : Json) : Except String (List (String × String × String)) :=
  match jsGetField d "steps" with
  | none => Except.ok []
  | some (Json.arr xs) => Except.ok (xs.enum.map (fun p => editorStep p.1 p.2))
  | some v => if jsTruthy v then Except.error "TypeError" else Except.ok []

/-- `EditorTeamMessage`: structured card when the decoded value passes the
format test — with the `TypeError` from a truthy non-array `steps`
escaping the render path — and the plain bubble otherwise. -/
def editorTeamRender (content : Option String) : Except String EditorView :=
  match editorClassify content with
  | some d =>
    match editorStepRows d with
    | Except.ok rows =>
      Except.ok (.card (jsCoalesceDisplay (jsGetField d "title") "Editor Team Progress") rows)
    | Except.error e => Except.error e
  | none => Except.ok (.bubble (content.getD "暂无内容"))

/-- One rendered evaluator block: criterion heading and evaluation text. -/
structure EvalItem where
  criterion : String
  evaluation : Json

/-- `EvaluatorMessage`'s `evaluationItems`:
`Object.entries(parseJSON(message.content ?? "", {})).map(([key, value]) => ...)`,
one titled block per entry, in entry order. -/
def evaluatorItems (content : Option String) : List EvalItem :=
  (jsEntries (parseJSON (some (content.getD "")) (Json.obj []))).map
    (fun p => ⟨p.1, p.2⟩)

/-- The message record the list renderer reads. -/
structure Msg where
  id : String
  role : String
  agent : Option String
  content : Option String
  isStreaming : Bool

/-- The agent tags `MessageListItem` enumerates. -/
def listedAgents : List String :=
  ["coordinator", "planner", "podcast", "feedback_handler", "generate_questions",
   "reporter", "outline", "editor_team", "evaluator"]

/-- Truthiness of optional string content. -/
def jsStrTruthy : Option String → Bool
  | some s => !s.isEmpty
  | none => false

/-- The visual shape `MessageListItem` chooses for a message. -/
inductive ItemView where
  | plan
  | podcast
  | outline
  | editorTeam
  | evaluator
  | research
  | bubble (text : String)

/-- `MessageListItem`'s dispatch (`page.tsx` lines 187–291): the guarded
agent list, then the per-agent branches in source order; `none` models
`return null`. -/
def messageListItem (message : Msg) (researchIds : List String) : Option ItemView :=
  if message.role = "user" ∨ message.agent = some "coordinator"
     ∨ message.agent = some "planner" ∨ message.agent = some "podcast"
     ∨ message.agent = some "feedback_handler" ∨ message.agent = some "generate_questions"
     ∨ message.agent = some "reporter" ∨ message.agent = some "outline"
     ∨ message.agent = some "editor_team" ∨ message.agent = some "evaluator"
     ∨ researchIds.contains message.id = true then
    if message.agent = some "planner" then some ItemView.plan
    else if message.agent = some "podcast" then some ItemView.podcast
    else if message.agent = some "outline" then
      if jsStrTruthy message.content then some ItemView.outline else none
    else if message.agent = some "editor_team" then
      if jsStrTruthy message.content then some ItemView.editorTeam else none
    else if message.agent = some "evaluator" then
      if jsStrTruthy message.content then some ItemView.evaluator else none
    else if researchIds.contains message.id then some ItemView.research
    else if jsStrTruthy message.content then
      some (ItemView.bubble (message.content.getD ""))
    else none
  else none

/-- C2: on the truncated JSON prefix `{"title":"Plan","steps":[{"title":"Step 1`
the decoder recovers the partial structure — `title` is `"Plan"`, `steps`
is an array with a partial first element — and does not return the
fallback (and, being a total function, does not throw). -/
theorem parseJSON_truncated_prefix_recovers :
    parseJSON (some "\x7b\"title\":\"Plan\",\"steps\":[\x7b\"title\":\"Step 1") (Json.obj []) =
      Json.obj [("title", Json.str "Plan"),
        ("steps", Json.arr [Json.obj [("title", Json.str "Step 1")]])] ∧
    Json.obj [("title", Json.str "Plan"),
        ("steps", Json.arr [Json.obj [("title", Json.str "Step 1")]])] ≠
      Json.obj [] := by
  refine ⟨rfl, ?_⟩
  simp

/-- C6: the decoder returns the caller's fallback exactly in the failure
cases and never throws — `null`/`undefined` and empty input give the
fallback for every fallback value, any unrecoverable parse failure gives
the fallback, and `decode('not json at all', {x:1})` gives `{x:1}`. -/
theorem parseJSON_fallback_cases :
    (∀ fb : Json, parseJSON none fb = fb ∧ parseJSON (some "") fb = fb) ∧
    (∀ (s : String) (fb : Json),
        bestEffortParse (stripFences (trimChars s.data)) = none →
        parseJSON (some s) fb = fb) ∧
    parseJSON (some "not json at all") (Json.obj [("x", Json.num "1")]) =
      Json.obj [("x", Json.num "1")] := by
  refine ⟨fun fb => ⟨rfl, rfl⟩, ?_, rfl⟩
  intro s fb h
  unfold parseJSON
  by_cases hs : s.isEmpty
  · simp [hs]
  · simp [hs, h]

/-- Witness for C6 at the concrete unrecoverable input. -/
theorem parseJSON_fallback_cases_witness :
    bestEffortParse (stripFences (trimChars ("not json at all").data)) = none ∧
    parseJSON (some "not json at all") Json.null = Json.null :=
  ⟨rfl, parseJSON_fallback_cases.2.1 "not json at all" Json.null rfl⟩

/-- C1 (code bug): `PodcastCard` decodes with an unwrapped
`JSON.parse(message.content ?? "")`, so empty or partially streamed
content makes the render path throw a `SyntaxError` instead of degrading
to a fallback rendering; only complete valid JSON renders. -/
theorem podcastCard_unwrapped_decode_throws :
    podcastCardRender (some "") = Except.error "SyntaxError" ∧
    podcastCardRender none = Except.error "SyntaxError" ∧
    podcastCardRender (some "\x7b\"title\":\"T") = Except.error "SyntaxError" ∧
    podcastCardRender (some "\x7b\"title\":\"T\",\"audioUrl\":\"u\"\x7d") =
      Except.ok (Json.obj [("title", Json.str "T"), ("audioUrl", Json.str "u")]) :=
  ⟨rfl, rfl, rfl, rfl⟩

/-- C7: at most one research session is open at a time — openness is
being the store's single open-session id, opening B closes A, and the
card's toggle closes its own open session and opens a non-open one. -/
theorem research_single_open_invariant :
    (∀ (st : ResearchStore) (x y : String),
        isResearchOpen st x = true → isResearchOpen st y = true → x = y) ∧
    (∀ (st : ResearchStore) (a b : String), a ≠ b →
        isResearchOpen (openResearch b st) b = true ∧
        isResearchOpen (openResearch b st) a = false) ∧
    (∀ (st : ResearchStore) (id : String),
        st.openResearchId = some id → handleOpenToggle id st = closeResearch st) ∧
    (∀ (st : ResearchStore) (id : String),
        st.openResearchId ≠ some id → handleOpenToggle id st = openResearch id st) := by
  refine ⟨?_, ?_, ?_, ?_⟩
  · intro st x y hx hy
    simp only [isResearchOpen, decide_eq_true_eq] at hx hy
    rw [hx] at hy
    exact Option.some.inj hy
  · intro st a b hab
    constructor
    · simp [isResearchOpen, openResearch]
    · simp [isResearchOpen, openResearch]
      exact fun h => hab h.symm
  · intro st id h
    simp [handleOpenToggle, h]
  · intro st id h
    simp [handleOpenToggle, h]

/-- Witness for C7: opening B while A is open. -/
theorem research_single_open_invariant_witness :
    isResearchOpen (openResearch "B" ⟨some "A"⟩) "B" = true ∧
    isResearchOpen (openResearch "B" ⟨some "A"⟩) "A" = false ∧
    handleOpenToggle "A" ⟨some "A"⟩ = closeResearch ⟨some "A"⟩ := by
  refine ⟨(research_single_open_invariant.2.1 ⟨some "A"⟩ "A" "B" (by decide)).1,
    (research_single_open_invariant.2.1 ⟨some "A"⟩ "A" "B" (by decide)).2,
    research_single_open_invariant.2.2.1 ⟨some "A"⟩ "A" rfl⟩

theorem append_isPrefixOf {α} [BEq α] (a b cs : List α)
    (h : (a ++ b).isPrefixOf cs = true) : a.isPrefixOf cs = true := by
  induction a generalizing cs with
  | nil => simp [List.isPrefixOf]
  | cons x xs ih =>
    cases cs with
    | nil => simp [List.isPrefixOf] at h
    | cons y ys =>
      simp only [List.cons_append, List.isPrefixOf, Bool.and_eq_true] at h ⊢
      exact ⟨h.1, ih ys h.2⟩

theorem stripLead1_id (tag : List Char) (cs : List Char)
    (h : isFencePrefix cs = false) : stripLead1 tag cs = cs := by
  unfold stripLead1
  rw [if_neg]
  intro hpre
  have h3 : [backquote, backquote, backquote].isPrefixOf cs = true :=
    append_isPrefixOf [backquote, backquote, backquote] tag cs hpre
  rw [isFencePrefix, h3] at h
  exact Bool.true_eq_false.mp h

theorem leadChain_eq_specOnce (cs : List Char)
    (h : isFencePrefix (stripLeadSpecOnce cs) = false) :
    stripLead1 []
      (stripLead1 plaintextTag
        (stripLead1 tsTag (stripLead1 jsTag (stripLead1 jsonTag cs)))) =
      stripLeadSpecOnce cs := by
  by_cases h1 : (backquote :: backquote :: backquote :: jsonTag).isPrefixOf cs = true
  · have hspec : stripLeadSpecOnce cs = stripLead1 jsonTag cs := by
      unfold stripLeadSpecOnce
      rw [if_pos h1]
    rw [hspec] at h ⊢
    rw [stripLead1_id jsTag _ h, stripLead1_id tsTag _ h,
      stripLead1_id plaintextTag _ h, stripLead1_id [] _ h]
  · have e1 : stripLead1 jsonTag cs = cs := by
      unfold stripLead1
      rw [if_neg h1]
    rw [e1]
    by_cases h2 : (backquote :: backquote :: backquote :: jsTag).isPrefixOf cs = true
    · have hspec : stripLeadSpecOnce cs = stripLead1 jsTag cs := by
        unfold stripLeadSpecOnce
        rw [if_neg h1, if_pos h2]
      rw [hspec] at h ⊢
      rw [stripLead1_id tsTag _ h, stripLead1_id plaintextTag _ h, stripLead1_id [] _ h]
    · have e2 : stripLead1 jsTag cs = cs := by
        unfold stripLead1
        rw [if_neg h2]
      rw [e2]
      by_cases h3 : (backquote :: backquote :: backquote :: tsTag).isPrefixOf cs = true
      · have hspec : stripLeadSpecOnce cs = stripLead1 tsTag cs := by
          unfold stripLeadSpecOnce
          rw [if_neg h1, if_neg h2, if_pos h3]
        rw [hspec] at h ⊢
        rw [stripLead1_id plaintextTag _ h, stripLead1_id [] _ h]
      · have e3 : stripLead1 tsTag cs = cs := by
          unfold stripLead1
          rw [if_neg h3]
        rw [e3]
        by_cases h4 : (backquote :: backquote :: backquote :: plaintextTag).isPrefixOf cs = true
        · have hspec : stripLeadSpecOnce cs = stripLead1 plaintextTag cs := by
            unfold stripLeadSpecOnce
            rw [if_neg h1, if_neg h2, if_neg h3, if_pos h4]
          rw [hspec] at h ⊢
          rw [stripLead1_id [] _ h]
        · have e4 : stripLead1 plaintextTag cs = cs := by
            unfold stripLead1
            rw [if_neg h4]
          rw [e4]
          unfold stripLeadSpecOnce
          rw [if_neg h1, if_neg h2, if_neg h3, if_neg h4]

theorem stripFences_eq_specStrip (cs : List Char)
    (h : isFencePrefix (stripLeadSpecOnce cs) = false) :
    stripFences cs = stripTrail1 (stripLeadSpecOnce cs) := by
  unfold stripFences
  rw [leadChain_eq_specOnce cs h]

/-- C3 counterexample: on `'```json\n```js\n1'` the decoder strips TWO
leading fence markers — the `^```json` replace exposes a `^```js` fence
which the next replace also removes — so the second fence is not preserved
as literal text: the code decodes `1`, while the claim's one-strip reading
would leave `'```js\n1'` unparseable and return the fallback. -/
theorem parseJSON_fence_stripping_counterexample :
    parseJSON (some "```json\n```js\n1") Json.null = Json.num "1" ∧
    parseJSONSpec (some "```json\n```js\n1") Json.null = Json.null ∧
    Json.num "1" ≠ Json.null ∧
    stripFences (trimChars ("```json\n```js\n1").data) = ['1'] ∧
    stripTrail1 (stripLeadSpecOnce (trimChars ("```json\n```js\n1").data)) =
      ("```js\n1").data := by
  refine ⟨rfl, rfl, ?_, rfl, rfl⟩
  intro h
  exact Json.noConfusion h

/-- C3 amended: the decoder applies the five leading-fence rules once each
in the fixed order `json`, `js`, `ts`, `plaintext`, bare — so several
leading fences can be stripped in sequence — and one trailing fence.
Whenever the input does not expose a second leading fence after the first
strip, this agrees with the claim's strip-at-most-one reading; in
particular `decode('```json\n{"a":1}\n```', {})` yields `{a:1}`. -/
theorem parseJSON_fence_stripping_amended :
    (∀ (s : String) (fb : Json),
        isFencePrefix (stripLeadSpecOnce (trimChars s.data)) = false →
        parseJSON (some s) fb = parseJSONSpec (some s) fb) ∧
    parseJSON (some "```json\n\x7b\"a\":1\x7d\n```") (Json.obj []) =
      Json.obj [("a", Json.num "1")] := by
  constructor
  · intro s fb h
    show (if s.isEmpty then fb
        else match bestEffortParse (stripFences (trimChars s.data)) with
          | some v => v
          | none => fb) =
      (if s.isEmpty then fb
        else match bestEffortParse (stripTrail1 (stripLeadSpecOnce (trimChars s.data))) with
          | some v => v
          | none => fb)
    rw [stripFences_eq_specStrip _ h]
  · rfl

/-- Witness for the amended C3 at the fenced example input. -/
theorem parseJSON_fence_stripping_amended_witness :
    isFencePrefix (stripLeadSpecOnce (trimChars ("```json\n\x7b\"a\":1\x7d\n```").data)) = false ∧
    parseJSON (some "```json\n\x7b\"a\":1\x7d\n```") Json.null =
      parseJSONSpec (some "```json\n\x7b\"a\":1\x7d\n```") Json.null :=
  ⟨rfl, parseJSON_fence_stripping_amended.1 _ Json.null rfl⟩

theorem thought_reachable_inv (st : ThoughtState) (h : ThoughtReachable st) :
    st.hasAutoCollapsed = false → st.prevDeps ≠ some (true, false) := by
  induction h with
  | init => intro _; simp [thoughtInit]
  | step st e _ ih =>
    cases e with
    | userSetOpen b =>
      intro hl
      simp only [thoughtStep] at hl ⊢
      exact ih hl
    | render hmc =>
      intro hl
      by_cases hd : st.prevDeps = some (hmc, st.hasAutoCollapsed)
      · simp only [thoughtStep, if_pos hd] at hl ⊢
        exact ih hl
      · by_cases hg : (hmc && !st.hasAutoCollapsed) = true
        · simp only [thoughtStep, if_neg hd, if_pos hg] at hl
          exact absurd hl (by simp)
        · simp only [thoughtStep, if_neg hd, if_pos, hg, if_neg] at hl ⊢
          simp only [Bool.and_eq_true, Bool.not_eq_true'] at hg
          intro hcon
          have : hmc = true ∧ st.hasAutoCollapsed = false := by
            have := Option.some.inj hcon
            exact ⟨congrArg Prod.fst this, congrArg Prod.snd this⟩
          exact hg ⟨this.1, hl⟩

/-- C5: the reasoning panel auto-collapses exactly once — from any
reachable state with the latch unset, a render with main content present
forces `open := false` and sets the latch; once the latch is set, no
render ever changes `open` again (a manual reopen is preserved), and the
latch is never unset. -/
theorem thoughtBlock_autocollapse_once (st : ThoughtState) (h : ThoughtReachable st) :
    (st.hasAutoCollapsed = false →
      (thoughtStep st (.render true)).isOpen = false ∧
      (thoughtStep st (.render true)).hasAutoCollapsed = true) ∧
    (st.hasAutoCollapsed = true →
      ∀ hmc, (thoughtStep st (.render hmc)).isOpen = st.isOpen) ∧
    (∀ e, st.hasAutoCollapsed = true → (thoughtStep st e).hasAutoCollapsed = true) := by
  refine ⟨?_, ?_, ?_⟩
  · intro hl
    have hd : st.prevDeps ≠ some (true, false) := thought_reachable_inv st h hl
    simp only [thoughtStep, hl]
    rw [if_neg hd]
    simp
  · intro hl hmc
    by_cases hd : st.prevDeps = some (hmc, st.hasAutoCollapsed)
    · simp only [thoughtStep, if_pos hd]
    · rw [hl] at hd
      simp only [thoughtStep, hl]
      rw [if_neg hd]
      simp
  · intro e hl
    cases e with
    | userSetOpen b => simpa only [thoughtStep] using hl
    | render hmc =>
      by_cases hd : st.prevDeps = some (hmc, st.hasAutoCollapsed)
      · simpa only [thoughtStep, if_pos hd] using hl
      · simp only [thoughtStep, if_neg hd]
        by_cases hg : (hmc && !st.hasAutoCollapsed) = true
        · simp [hg]
        · simp [hg, hl]

/-- Witness for C5: from the initial state, a render with main content
collapses the panel and sets the latch; a further render does not change
the `open` state. -/
theorem thoughtBlock_autocollapse_once_witness :
    (thoughtStep thoughtInit (ThoughtEvent.render true)).isOpen = false ∧
    (thoughtStep thoughtInit (ThoughtEvent.render true)).hasAutoCollapsed = true ∧
    (thoughtStep (thoughtStep thoughtInit (ThoughtEvent.render true))
        (ThoughtEvent.render false)).isOpen =
      (thoughtStep thoughtInit (ThoughtEvent.render true)).isOpen :=
  ⟨((thoughtBlock_autocollapse_once thoughtInit .init).1 rfl).1,
   ((thoughtBlock_autocollapse_once thoughtInit .init).1 rfl).2,
   (thoughtBlock_autocollapse_once (thoughtStep thoughtInit (ThoughtEvent.render true))
      (.step thoughtInit (ThoughtEvent.render true) .init)).2.1 rfl false⟩

theorem outlineTrace_replicate_fix (st : OutlineState) (b : Bool) (c : Option String)
    (m : Nat) (h : st.prevDeps = some (b, sectionsDepKey c)) :
    outlineTrace st (List.replicate m (b, c)) = st := by
  induction m with
  | zero => rfl
  | succ n ih =>
    have hr : outlineRender st b c = st := by
      unfold outlineRender
      rw [if_pos h]
    rw [List.replicate_succ]
    simp only [outlineTrace]
    rw [hr, ih]

/-- C4: when an outline message's `isStreaming` flips from `true` to
`false` while its decoded content has a `sections` array of length `n`,
the effect writes the edit-team count `n` exactly once; any number of
further re-renders of the now-completed message with unchanged content do
not run the write again (unchanged effect dependencies). -/
theorem outline_editTeamCount_once (c : String) (xs : List Json) (m : Nat)
    (hs : sectionsField (some c) = some (Json.arr xs)) :
    (outlineTrace outlineInit
        ((true, some c) :: List.replicate (m + 1) (false, some c))).editTeamCount =
      some (some xs.length) ∧
    (outlineTrace outlineInit
        ((true, some c) :: List.replicate (m + 1) (false, some c))).setCalls = 1 := by
  have h1 : outlineRender outlineInit true (some c) =
      ⟨some (true, sectionsDepKey (some c)), none, 0⟩ := by
    unfold outlineRender
    rw [if_neg (by simp [outlineInit])]
    simp [outlineInit]
  have h2 : outlineRender ⟨some (true, sectionsDepKey (some c)), none, 0⟩ false (some c) =
      ⟨some (false, sectionsDepKey (some c)), some (some xs.length), 1⟩ := by
    unfold outlineRender
    rw [if_neg (by simp)]
    simp [hs, jsTruthy, jsLengthOpt]
  have h3 := outlineTrace_replicate_fix
      ⟨some (false, sectionsDepKey (some c)), some (some xs.length), 1⟩ false (some c) m rfl
  constructor <;>
    simp only [outlineTrace, List.replicate_succ, h1, h2, h3]

/-- Witness for C4: a three-section outline, one completion transition,
two further re-renders. -/
theorem outline_editTeamCount_once_witness :
    (outlineTrace outlineInit
        ((true, some "\x7b\"sections\":[1,2,3]\x7d") ::
          List.replicate 2 (false, some "\x7b\"sections\":[1,2,3]\x7d"))).editTeamCount =
      some (some 3) ∧
    (outlineTrace outlineInit
        ((true, some "\x7b\"sections\":[1,2,3]\x7d") ::
          List.replicate 2 (false, some "\x7b\"sections\":[1,2,3]\x7d"))).setCalls = 1 := by
  have h := outline_editTeamCount_once "\x7b\"sections\":[1,2,3]\x7d"
      [Json.num "1", Json.num "2", Json.num "3"] 1 rfl
  exact ⟨h.1, h.2⟩

theorem filterAllFalse {α : Type} (p : α → Bool) (l : List α)
    (h : ∀ a ∈ l, p a = false) : l.filter p = [] := by
  induction l with
  | nil => rfl
  | cons x xs ih =>
    have hx := h x (List.mem_cons_self x xs)
    simp [List.filter, hx, ih (fun a ha => h a (List.mem_cons_of_mem x ha))]

theorem filterAllTrue {α : Type} (p : α → Bool) (l : List α)
    (h : ∀ a ∈ l, p a = true) : l.filter p = l := by
  induction l with
  | nil => rfl
  | cons x xs ih =>
    have hx := h x (List.mem_cons_self x xs)
    simp [List.filter, hx, ih (fun a ha => h a (List.mem_cons_of_mem x ha))]

/-- C8 counterexample: for a decoded mapping with array-index-like keys,
`Object.entries` lists them in ascending numeric order, not insertion
order — `{"1":"b","0":"a"}` renders the `"0"` block before the `"1"`
block. -/
theorem evaluator_insertion_order_counterexample :
    parseJSON (some "\x7b\"1\":\"b\",\"0\":\"a\"\x7d") (Json.obj []) =
      Json.obj [("1", Json.str "b"), ("0", Json.str "a")] ∧
    evaluatorItems (some "\x7b\"1\":\"b\",\"0\":\"a\"\x7d") =
      [⟨"0", Json.str "a"⟩, ⟨"1", Json.str "b"⟩] ∧
    evaluatorItems (some "\x7b\"1\":\"b\",\"0\":\"a\"\x7d") ≠
      [⟨"1", Json.str "b"⟩, ⟨"0", Json.str "a"⟩] := by
  refine ⟨rfl, rfl, ?_⟩
  intro h
  rw [show evaluatorItems (some "\x7b\"1\":\"b\",\"0\":\"a\"\x7d") =
      [⟨"0", Json.str "a"⟩, ⟨"1", Json.str "b"⟩] from rfl] at h
  simp [EvalItem.mk.injEq] at h

/-- C8 amended: the evaluator card renders exactly one titled block per
key of the decoded mapping and none for absent keys, in the mapping's
insertion order whenever no key is array-index-like (JavaScript property
enumeration lists integer-like keys first, ascending) — which holds for
the evaluator's criterion-named keys; an empty or undecodable payload
yields zero blocks. -/
theorem evaluator_blocks_in_order (c : String) (m : List (String × Json))
    (hm : parseJSON (some c) (Json.obj []) = Json.obj m)
    (hno : ∀ p ∈ dedupeProps m, isArrayIndexKey p.1 = false) :
    evaluatorItems (some c) = (dedupeProps m).map (fun p => EvalItem.mk p.1 p.2) ∧
    evaluatorItems (some "not json at all") = [] ∧
    evaluatorItems (some "") = [] := by
  refine ⟨?_, rfl, rfl⟩
  show (jsEntries (parseJSON (some c) (Json.obj []))).map (fun p => EvalItem.mk p.1 p.2) =
    (dedupeProps m).map (fun p => EvalItem.mk p.1 p.2)
  rw [hm]
  show (sortIdxKeys ((dedupeProps m).filter (fun p => isArrayIndexKey p.1)) ++
      (dedupeProps m).filter (fun p => !isArrayIndexKey p.1)).map
        (fun p => EvalItem.mk p.1 p.2) =
    (dedupeProps m).map (fun p => EvalItem.mk p.1 p.2)
  rw [filterAllFalse _ _ hno, filterAllTrue]
  · rfl
  · intro a ha
    rw [hno a ha]
    rfl

/-- Witness for the amended C8: two criterion-keyed entries render as two
blocks in insertion order. -/
theorem evaluator_blocks_in_order_witness :
    parseJSON (some "\x7b\"Relevance\":\"good\",\"Readability\":\"ok\"\x7d") (Json.obj []) =
      Json.obj [("Relevance", Json.str "good"), ("Readability", Json.str "ok")] ∧
    evaluatorItems (some "\x7b\"Relevance\":\"good\",\"Readability\":\"ok\"\x7d") =
      [⟨"Relevance", Json.str "good"⟩, ⟨"Readability", Json.str "ok"⟩] := by
  have h := evaluator_blocks_in_order "\x7b\"Relevance\":\"good\",\"Readability\":\"ok\"\x7d"
      [("Relevance", Json.str "good"), ("Readability", Json.str "ok")] rfl (by decide)
  exact ⟨rfl, h.1⟩

theorem editorClassify_pos (c : String)
    (h : editorStructured (parseJSON (some c) Json.null) = true) :
    editorClassify (some c) = some (parseJSON (some c) Json.null) := by
  show (if editorStructured (parseJSON (some c) Json.null) then
      some (parseJSON (some c) Json.null) else none) = _
  rw [if_pos h]

theorem editorClassify_neg (c : String)
    (h : editorStructured (parseJSON (some c) Json.null) = false) :
    editorClassify (some c) = none := by
  show (if editorStructured (parseJSON (some c) Json.null) then
      some (parseJSON (some c) Json.null) else none) = _
  rw [if_neg]
  rw [h]
  exact Bool.false_ne_true

theorem editorTeamRender_of_classify (c : String) (d : Json)
    (hc : editorClassify (some c) = some d) :
    editorTeamRender (some c) =
      (match editorStepRows d with
       | Except.ok rows => Except.ok (EditorView.card
           (jsCoalesceDisplay (jsGetField d "title") "Editor Team Progress") rows)
       | Except.error e => Except.error e) := by
  unfold editorTeamRender
  rw [hc]

/-- C9 counterexample: for content `{"steps":1}` the decoded value is a
non-null object with a `steps` field — the structured test passes — yet
no structured card is rendered: `editorData.steps` is truthy but has no
`.map`, so the render path throws a `TypeError`. -/
theorem editorTeam_nonarray_steps_counterexample :
    editorStructured (parseJSON (some "\x7b\"steps\":1\x7d") Json.null) = true ∧
    editorTeamRender (some "\x7b\"steps\":1\x7d") = Except.error "TypeError" :=
  ⟨rfl, rfl⟩

/-- C9 amended: an editor-team message passes the structured test exactly
when its tolerantly decoded value is a non-null object with a `title` or
`steps` property (so a plain-text message that parses to such JSON is also
treated structured); a passing message renders the structured card when
`steps` decodes to an array (one row per step) or is absent (no rows), but
a truthy non-array `steps` makes the render throw a `TypeError`, so no
card is rendered; every other decoded value renders as the plain bubble;
a step's type badge is the localized label for exactly `info_collecting`
and the type string verbatim otherwise. -/
theorem editorTeam_structured_dispatch :
    (∀ v : Json, editorStructured v = true ↔
      ∃ fs, v = Json.obj fs ∧
        ((jsGetField v "title").isSome = true ∨ (jsGetField v "steps").isSome = true)) ∧
    (∀ (c : String) (xs : List Json),
      editorStructured (parseJSON (some c) Json.null) = true →
      jsGetField (parseJSON (some c) Json.null) "steps" = some (Json.arr xs) →
      editorTeamRender (some c) = Except.ok (EditorView.card
        (jsCoalesceDisplay (jsGetField (parseJSON (some c) Json.null) "title")
          "Editor Team Progress")
        (xs.enum.map (fun p => editorStep p.1 p.2)))) ∧
    (∀ c : String,
      editorStructured (parseJSON (some c) Json.null) = true →
      jsGetField (parseJSON (some c) Json.null) "steps" = none →
      editorTeamRender (some c) = Except.ok (EditorView.card
        (jsCoalesceDisplay (jsGetField (parseJSON (some c) Json.null) "title")
          "Editor Team Progress") [])) ∧
    (∀ (c : String) (v : Json),
      editorStructured (parseJSON (some c) Json.null) = true →
      jsGetField (parseJSON (some c) Json.null) "steps" = some v →
      jsIsArray v = false → jsTruthy v = true →
      editorTeamRender (some c) = Except.error "TypeError") ∧
    (∀ c : String, editorStructured (parseJSON (some c) Json.null) = false →
      editorTeamRender (some c) = Except.ok (EditorView.bubble c)) ∧
    (∀ (s : Json) (t : String), jsGetField s "type" = some (Json.str t) →
      stepBadge s = if t = "info_collecting" then "信息收集" else t) := by
  refine ⟨?_, ?_, ?_, ?_, ?_, ?_⟩
  · intro v
    cases v <;> simp [editorStructured, jsTruthy, jsTypeofIsObject, jsGetField]
  · intro c xs h hsteps
    rw [editorTeamRender_of_classify c _ (editorClassify_pos c h)]
    unfold editorStepRows
    rw [hsteps]
  · intro c h hsteps
    rw [editorTeamRender_of_classify c _ (editorClassify_pos c h)]
    unfold editorStepRows
    rw [hsteps]
  · intro c v h hsteps hna ht
    rw [editorTeamRender_of_classify c _ (editorClassify_pos c h)]
    unfold editorStepRows
    rw [hsteps]
    cases v with
    | arr xs => simp [jsIsArray] at hna
    | null => simp [ht]
    | bool b => simp [ht]
    | num lit => simp [ht]
    | str s => simp [ht]
    | obj fs => simp [ht]
  · intro c h
    have hc := editorClassify_neg c h
    unfold editorTeamRender
    rw [hc]
    rfl
  · intro s t h
    unfold stepBadge
    rw [h]

/-- Witness for the amended C9: an array-steps message renders the card
with its badge row, a truthy non-array `steps` throws, plain text renders
as a bubble, and the verbatim badge case. -/
theorem editorTeam_structured_dispatch_witness :
    editorTeamRender
        (some "\x7b\"title\":\"T\",\"steps\":[\x7b\"type\":\"info_collecting\",\"title\":\"s1\"\x7d]\x7d") =
      Except.ok (EditorView.card "T" [("信息收集", "s1", "暂无描述")]) ∧
    editorTeamRender (some "\x7b\"steps\":\"x\"\x7d") = Except.error "TypeError" ∧
    editorTeamRender (some "hello world") = Except.ok (EditorView.bubble "hello world") ∧
    stepBadge (Json.obj [("type", Json.str "analysis")]) = "analysis" := by
  refine ⟨?_, ?_, ?_, ?_⟩
  · exact editorTeam_structured_dispatch.2.1
      "\x7b\"title\":\"T\",\"steps\":[\x7b\"type\":\"info_collecting\",\"title\":\"s1\"\x7d]\x7d"
      [Json.obj [("type", Json.str "info_collecting"), ("title", Json.str "s1")]] rfl rfl
  · exact editorTeam_structured_dispatch.2.2.2.1 "\x7b\"steps\":\"x\"\x7d"
      (Json.str "x") rfl rfl rfl rfl
  · exact editorTeam_structured_dispatch.2.2.2.2.1 "hello world" rfl
  · have h := editorTeam_structured_dispatch.2.2.2.2.2
      (Json.obj [("type", Json.str "analysis")]) "analysis" rfl
    simpa using h

/-- C10: an assistant message whose agent tag is outside the renderer's
enumerated list and whose id is not a research-session start id renders
nothing, however much content it has. -/
theorem messageListItem_unlisted_agent_renders_nothing (message : Msg)
    (researchIds : List String)
    (hrole : message.role = "assistant")
    (hagent : ∀ a ∈ listedAgents, message.agent ≠ some a)
    (hid : researchIds.contains message.id = false) :
    messageListItem message researchIds = none := by
  unfold messageListItem
  split
  next hcond =>
    exfalso
    rcases hcond with h | h | h | h | h | h | h | h | h | h | h
    · rw [hrole] at h
      exact absurd h (by decide)
    · exact hagent "coordinator" (by simp [listedAgents]) h
    · exact hagent "planner" (by simp [listedAgents]) h
    · exact hagent "podcast" (by simp [listedAgents]) h
    · exact hagent "feedback_handler" (by simp [listedAgents]) h
    · exact hagent "generate_questions" (by simp [listedAgents]) h
    · exact hagent "reporter" (by simp [listedAgents]) h
    · exact hagent "outline" (by simp [listedAgents]) h
    · exact hagent "editor_team" (by simp [listedAgents]) h
    · exact hagent "evaluator" (by simp [listedAgents]) h
    · rw [hid] at h
      exact absurd h (by decide)
  next => rfl

/-- Witness for C10: an assistant message tagged `researcher` with content,
not a research start id. -/
theorem messageListItem_unlisted_agent_renders_nothing_witness :
    messageListItem ⟨"m1", "assistant", some "researcher", some "lots of content", false⟩
      ["r1"] = none :=
  messageListItem_unlisted_agent_renders_nothing
    ⟨"m1", "assistant", some "researcher", some "lots of content", false⟩
    ["r1"] rfl (by decide) (by decide)
